import Mathlib

/-!
Verification of the Pebblo retrieval chain with identity & semantic
enforcement (`langchain_community/chains/pebblo_retrieval/base.py`).

The chain wrapper (`PebbloRetrievalQA`) is embedded from the source file.
The enforcement-filter compiler (`enforcement_filters.py`: the
`set_enforcement_filters` entry point and the backend capability list
`SUPPORTED_VECTORSTORES`) is not part of the provided sources, so those
definitions are modelled from the spec (sections 4.1-4.3) and are marked
as such in their doc comments.
-/

/-- Identity context of a request (`models.AuthContext`):
`user_id` plus the group/role identifiers held by the principal. -/
structure AuthContext where
  user_id : String
  user_auth : List String
deriving DecidableEq, Repr

/-- Semantic context of a request (`models.SemanticContext`):
allow and deny label lists for the topic and entity dimensions. -/
structure SemanticContext where
  allowed_topics : List String
  denied_topics : List String
  allowed_entities : List String
  denied_entities : List String
deriving DecidableEq, Repr

/-- Modelled from the spec: a `CompiledFilter` is "a tree of AND/OR/NOT
nodes over field-comparison leaves" (section 3). `empty` is the
no-restriction filter of spec section 4.2 step 1. -/
inductive CompiledFilter where
  | empty : CompiledFilter
  | eqCmp (field : String) (value : String) : CompiledFilter
  | inCmp (field : String) (values : List String) : CompiledFilter
  | notInCmp (field : String) (values : List String) : CompiledFilter
  | andF (l r : CompiledFilter) : CompiledFilter
  | orF (l r : CompiledFilter) : CompiledFilter
deriving DecidableEq, Repr

/-- Modelled from the spec: a backend capability record (section 3,
`BackendCapability`): the logical operators the backend supports and the
native metadata field names for the identity and semantic dimensions
(`none` = no mapping, yielding `MissingFieldMappingError`). -/
structure BackendCapability where
  supportsAnd : Bool
  supportsOr : Bool
  supportsNot : Bool
  principalField : Option String
  groupField : Option String
  topicField : Option String
  entityField : Option String
deriving DecidableEq, Repr

/-- Error kinds of spec section 7. -/
inductive EnforcementError where
  | unsupportedBackend (backend : String) : EnforcementError
  | unsupportedFilterOperator : EnforcementError
  | missingFieldMapping (field : String) : EnforcementError
deriving DecidableEq, Repr

/-- Evaluation of a compiled filter against a document's metadata, where
`meta` gives the list of string values stored under each native field
name. A NOT-IN leaf holds when no listed label occurs in the field. -/
def evalFilter (meta : String → List String) : CompiledFilter → Bool
  | .empty => true
  | .eqCmp f v => decide (v ∈ meta f)
  | .inCmp f vs => vs.any (fun v => decide (v ∈ meta f))
  | .notInCmp f vs => vs.all (fun v => !decide (v ∈ meta f))
  | .andF l r => evalFilter meta l && evalFilter meta r
  | .orF l r => evalFilter meta l || evalFilter meta r

/-- Whether `t` occurs as a clause (subtree) of a compiled filter. -/
def containsClause : CompiledFilter → CompiledFilter → Bool
  | .andF l r, t =>
    decide (CompiledFilter.andF l r = t) || containsClause l t || containsClause r t
  | .orF l r, t =>
    decide (CompiledFilter.orF l r = t) || containsClause l t || containsClause r t
  | c, t => decide (c = t)

/-- Modelled from the spec: look up a field mapping in the capability
record, failing with `MissingFieldMappingError` when absent (section 4.2
step 5). -/
def requireField (fieldMapping : Option String) (fname : String) :
    Except EnforcementError String :=
  match fieldMapping with
  | some f => .ok f
  | none => .error (.missingFieldMapping fname)

/-- Modelled from the spec: build an AND node only when the backend
declares AND supported, else `UnsupportedFilterOperatorError`
(section 4.2 step 4). -/
def mkAnd (cap : BackendCapability) (l r : CompiledFilter) :
    Except EnforcementError CompiledFilter :=
  if cap.supportsAnd then .ok (.andF l r) else .error .unsupportedFilterOperator

/-- Modelled from the spec: build an OR node only when the backend
declares OR supported (section 4.2 step 4). -/
def mkOr (cap : BackendCapability) (l r : CompiledFilter) :
    Except EnforcementError CompiledFilter :=
  if cap.supportsOr then .ok (.orF l r) else .error .unsupportedFilterOperator

/-- Modelled from the spec: a NOT-IN predicate requires the backend to
support NOT; otherwise fail rather than silently drop the constraint
(section 4.2 step 4). -/
def mkNotIn (cap : BackendCapability) (f : String) (vs : List String) :
    Except EnforcementError CompiledFilter :=
  if cap.supportsNot then .ok (.notInCmp f vs) else .error .unsupportedFilterOperator

/-- Modelled from the spec: combine a clause list with AND (section 4.2
step 4); the empty list compiles to the unrestricted filter (step 1). -/
def andAll (cap : BackendCapability) : List CompiledFilter → Except EnforcementError CompiledFilter
  | [] => .ok .empty
  | [c] => .ok c
  | c :: c2 :: rest =>
    match andAll cap (c2 :: rest) with
    | .error e => .error e
    | .ok r => mkAnd cap c r

/-- Modelled from the spec: the identity clause (section 4.2 step 2) —
a membership predicate over the principal and group fields, comparing
against `user_id` and each entry of `user_auth`, combined with OR; an
empty `user_auth` still permits the match on `user_id` alone. -/
def compileIdentityClause (cap : BackendCapability) (a : AuthContext) :
    Except EnforcementError CompiledFilter :=
  match cap.principalField with
  | none => .error (.missingFieldMapping "principal")
  | some pf =>
    if a.user_auth.isEmpty then .ok (.eqCmp pf a.user_id)
    else
      match cap.groupField with
      | none => .error (.missingFieldMapping "group")
      | some gf =>
        if cap.supportsOr then
          .ok (.orF (.eqCmp pf a.user_id) (.inCmp gf a.user_auth))
        else .error .unsupportedFilterOperator

/-- Modelled from the spec: the per-dimension semantic clause list
(section 4.2 step 3): an unconditional NOT-IN over the denied labels when
non-empty (deny-overrides), an IN over the allowed labels when non-empty,
nothing when the dimension is unconstrained. -/
def compileDimension (cap : BackendCapability) (fieldMapping : Option String)
    (fname : String) (denied allowed : List String) :
    Except EnforcementError (List CompiledFilter) :=
  if denied.isEmpty && allowed.isEmpty then .ok []
  else
    match requireField fieldMapping fname with
    | .error e => .error e
    | .ok f =>
      match (if denied.isEmpty then Except.ok ([] : List CompiledFilter)
             else match mkNotIn cap f denied with
                  | .error e => .error e
                  | .ok c => .ok [c]) with
      | .error e => .error e
      | .ok dcl =>
        .ok (dcl ++ (if allowed.isEmpty then [] else [CompiledFilter.inCmp f allowed]))

/-- Modelled from the spec: the identity part of the clause list; absent
auth context adds no identity clause (section 4.2 step 1). -/
def identityClauses (cap : BackendCapability) :
    Option AuthContext → Except EnforcementError (List CompiledFilter)
  | none => .ok []
  | some a =>
    match compileIdentityClause cap a with
    | .error e => .error e
    | .ok c => .ok [c]

/-- Modelled from the spec: semantic clause lists for the topic and
entity dimensions (section 4.2 step 3). -/
def semanticClauses (cap : BackendCapability) :
    Option SemanticContext → Except EnforcementError (List CompiledFilter)
  | none => .ok []
  | some s =>
    match compileDimension cap cap.topicField "topic" s.denied_topics s.allowed_topics with
    | .error e => .error e
    | .ok t =>
      match compileDimension cap cap.entityField "entity" s.denied_entities s.allowed_entities with
      | .error e => .error e
      | .ok e2 => .ok (t ++ e2)

/-- Modelled from the spec: the filter compiler (section 4.2) —
deterministic translation from the contexts and the backend capability
to a `CompiledFilter`, combining identity AND topic AND entity clauses. -/
def compileFilter (cap : BackendCapability) (auth : Option AuthContext)
    (sem : Option SemanticContext) : Except EnforcementError CompiledFilter :=
  match identityClauses cap auth with
  | .error e => .error e
  | .ok idCls =>
    match semanticClauses cap sem with
    | .error e => .error e
    | .ok semCls => andAll cap (idCls ++ semCls)

/-- The retriever handle seen by the chain: the class name of its
vectorstore (the backend identifier) and the mutation point for the next
search's filter (`retriever.search_kwargs` in the real backends). -/
structure Retriever where
  vectorstoreClass : String
  searchFilter : Option CompiledFilter
deriving DecidableEq, Repr

/-- Modelled from the spec: the backend-capability registry
(section 4.1): a static table from backend identifier to capability
record; `SUPPORTED_VECTORSTORES` of the missing `enforcement_filters`
module is its key set. -/
def Registry : Type := List (String × BackendCapability)

/-- The registry's enumerated backend identifiers
(`SUPPORTED_VECTORSTORES`). -/
def supportedNames (reg : Registry) : List String :=
  (reg : List (String × BackendCapability)).map Prod.fst

/-- Modelled from the spec: capability lookup, failing with
`UnsupportedBackendError` if the backend is absent (section 4.1). -/
def getCapability (reg : Registry) (backend : String) :
    Except EnforcementError BackendCapability :=
  match (reg : List (String × BackendCapability)).find? (fun p => decide (p.1 = backend)) with
  | some p => .ok p.2
  | none => .error (.unsupportedBackend backend)

/-- Modelled from the spec: `set_enforcement_filters` /
`apply_enforcement` (section 4.3): resolve the backend from the handle,
compile the filter from the current contexts, attach it to the handle's
next-query filter slot; fail closed on any error. -/
def set_enforcement_filters (reg : Registry) (r : Retriever)
    (auth : Option AuthContext) (sem : Option SemanticContext) :
    Except EnforcementError Retriever :=
  match getCapability reg r.vectorstoreClass with
  | .error e => .error e
  | .ok cap =>
    match compileFilter cap auth sem with
    | .error e => .error e
    | .ok f => .ok { r with searchFilter := some f }

/-- Observable enforcement-side events of one retrieval. -/
inductive Event where
  | attachFilter (f : Option CompiledFilter) : Event
  | similaritySearch (f : Option CompiledFilter) : Event
deriving DecidableEq, Repr

/-- `PebbloRetrievalQA._get_docs` (base.py lines 274-286): attach the
enforcement filters for the current request, then run the similarity
search with the handle's current filter. Returns the docs (or the
propagated enforcement error), the handle after the call, and the event
trace; `search` abstracts the external vector search engine. -/
def getDocs (reg : Registry) (r : Retriever) (auth : Option AuthContext)
    (sem : Option SemanticContext) (search : Option CompiledFilter → List Nat) :
    Except EnforcementError (List Nat) × Retriever × List Event :=
  match set_enforcement_filters reg r auth sem with
  | .error e => (.error e, r, [])
  | .ok r' =>
    (.ok (search r'.searchFilter), r',
     [Event.attachFilter r'.searchFilter, Event.similaritySearch r'.searchFilter])

/-- `PebbloRetrievalQA._aget_docs` (base.py lines 288-300): the async
path, with the same attach-then-search body as `_get_docs`. -/
def agetDocs (reg : Registry) (r : Retriever) (auth : Option AuthContext)
    (sem : Option SemanticContext) (search : Option CompiledFilter → List Nat) :
    Except EnforcementError (List Nat) × Retriever × List Event :=
  match set_enforcement_filters reg r auth sem with
  | .error e => (.error e, r, [])
  | .ok r' =>
    (.ok (search r'.searchFilter), r',
     [Event.attachFilter r'.searchFilter, Event.similaritySearch r'.searchFilter])

/-- `PebbloRetrievalQA.validate_vectorstore` (base.py lines 256-272):
pydantic validator on the `retriever` field; raises `ValueError` unless
the vectorstore is an instance of some supported vectorstore class. -/
def validate_vectorstore (supported : List String) (r : Retriever) :
    Except String Retriever :=
  if supported.any (fun c => decide (r.vectorstoreClass = c)) then .ok r
  else
    .error ("Vectorstore must be an instance of one of the supported vectorstores. Got "
      ++ r.vectorstoreClass ++ " instead.")

/-- The constructed chain: the validated retriever handle. -/
structure PebbloChain where
  retriever : Retriever
deriving DecidableEq, Repr

/-- Chain construction (`cls(...)` in `from_chain_type`, base.py lines
246-254): pydantic runs `validate_vectorstore` on the retriever field;
construction performs no filter work, so its event trace is empty. -/
def constructChain (reg : Registry) (r : Retriever) :
    Except String PebbloChain × List Event :=
  match validate_vectorstore (supportedNames reg) r with
  | .error e => (.error e, [])
  | .ok r' => (.ok { retriever := r' }, [])

/-- The `user` field of the Qa payload built in `_call` (base.py line
130): `auth_context.user_id if auth_context else "unknown"`; the absent
or empty (falsy) auth context is `none`. -/
def qaUser : Option AuthContext → String
  | none => "unknown"
  | some a => a.user_id

/-- The `user_identities` field of the Qa payload (base.py lines
131-133): `auth_context.user_auth` when an auth context is present,
else the empty list. -/
def qaUserIdentities : Option AuthContext → List String
  | none => []
  | some a => a.user_auth

/-- The identity-related fields of the Qa telemetry payload
(`models.Qa`). -/
structure QaRecord where
  user : String
  user_identities : List String
deriving DecidableEq, Repr

/-- Assembly of the Qa payload's identity fields in `_call` (base.py
lines 114-135). -/
def mkQaRecord (auth : Option AuthContext) : QaRecord :=
  { user := qaUser auth, user_identities := qaUserIdentities auth }

/-- A value of the chain's output dictionary. -/
inductive OutVal where
  | answerVal (s : String) : OutVal
  | docsVal (ds : List Nat) : OutVal
deriving DecidableEq, Repr

/-- A telemetry side effect of the chain. -/
inductive TelemetryEvent where
  | sendPrompt (qa : QaRecord) : TelemetryEvent
deriving DecidableEq, Repr

/-- The output dictionary built by `_call` and `_acall` (base.py lines
138-141 and 176-179): the answer under `output_key`, plus the retrieved
documents under `source_documents` when `return_source_documents` is
set. -/
def callOutputs (output_key : String) (return_source_documents : Bool)
    (answer : String) (docs : List Nat) : List (String × OutVal) :=
  if return_source_documents then
    [(output_key, .answerVal answer), ("source_documents", .docsVal docs)]
  else [(output_key, .answerVal answer)]

/-- `PebbloRetrievalQA._call` (base.py lines 80-141), after retrieval
and answer combination: builds the Qa payload and invokes `_send_prompt`,
then returns the output dictionary. Result: the outputs and the
telemetry events emitted. -/
def pebbloCall (output_key : String) (return_source_documents : Bool)
    (auth : Option AuthContext) (answer : String) (docs : List Nat) :
    List (String × OutVal) × List TelemetryEvent :=
  (callOutputs output_key return_source_documents answer docs,
   [TelemetryEvent.sendPrompt (mkQaRecord auth)])

/-- `PebbloRetrievalQA._acall` (base.py lines 143-179): returns the same
output dictionary while building no Qa payload and emitting no telemetry
event. -/
def pebbloAcall (output_key : String) (return_source_documents : Bool)
    (answer : String) (docs : List Nat) :
    List (String × OutVal) × List TelemetryEvent :=
  (callOutputs output_key return_source_documents answer docs, [])

/-- The class-level (process-wide) attributes of `PebbloRetrievalQA`
(base.py lines 75-78): the discover-sent and prompt-sent flags. -/
structure PebbloClassState where
  discover_sent : Bool
  prompt_sent : Bool
deriving DecidableEq, Repr

/-- `PebbloRetrievalQA.set_discover_sent` (base.py lines 383-385): a
classmethod writing `cls._discover_sent`; it takes no instance, only the
class state. -/
def set_discover_sent (s : PebbloClassState) : PebbloClassState :=
  { s with discover_sent := true }

/-- `PebbloRetrievalQA.set_prompt_sent` (base.py lines 387-389). -/
def set_prompt_sent (s : PebbloClassState) : PebbloClassState :=
  { s with prompt_sent := true }

/-- A chain instance's own attribute dictionary, as Python attribute
lookup sees it: per-instance entries shadow the class attribute. The
source never writes an instance-level `_discover_sent`/`_prompt_sent`
entry, so the dictionary stays empty for these names. -/
structure InstanceAttrs where
  instDict : List (String × Bool)
deriving DecidableEq, Repr

/-- Python attribute lookup for an instance: the instance dictionary
first, then the class attribute. -/
def lookupAttr (d : List (String × Bool)) (name : String) : Option Bool :=
  match d.find? (fun p => decide (p.1 = name)) with
  | some p => some p.2
  | none => none

/-- What a given instance observes for `_discover_sent`. -/
def readDiscoverSent (cls : PebbloClassState) (inst : InstanceAttrs) : Bool :=
  match lookupAttr inst.instDict "_discover_sent" with
  | some b => b
  | none => cls.discover_sent

/-- What a given instance observes for `_prompt_sent`. -/
def readPromptSent (cls : PebbloClassState) (inst : InstanceAttrs) : Bool :=
  match lookupAttr inst.instDict "_prompt_sent" with
  | some b => b
  | none => cls.prompt_sent

/-- Outcome of one telemetry HTTP post: a response with a status code
and a flag for whether its body parses as JSON, a
`requests.exceptions.RequestException`, or any other exception. -/
inductive HttpOutcome where
  | response (status : Nat) (jsonOk : Bool) : HttpOutcome
  | requestException : HttpOutcome
  | otherException : HttpOutcome
deriving DecidableEq, Repr

/-- The body of the local try-block of `_send_discover`/`_send_prompt`
(base.py lines 330-343 and 397-410): the post followed by the debug log,
whose arguments include `pebblo_resp.json()` — a malformed body raises
inside the try-block before the status check. -/
def tryPostAndLog : HttpOutcome → Except String Nat
  | .response status true => .ok status
  | .response _ false => .error "malformed json response body"
  | .requestException => .error "RequestException"
  | .otherException => .error "Exception"

/-- `PebbloRetrievalQA._send_discover` (base.py lines 321-381): the
local post sets the discover-sent flag on HTTP 200 or 502; every
exception of either post is caught and logged, so the function itself
never fails. -/
def send_discover (localResp cloudResp : HttpOutcome) (api_key : Option String)
    (s : PebbloClassState) : Except String PebbloClassState :=
  let s1 :=
    match tryPostAndLog localResp with
    | .ok status => if status = 200 || status = 502 then set_discover_sent s else s
    | .error _ => s
  match api_key with
  | none => .ok s1
  | some _ =>
    match tryPostAndLog cloudResp with
    | .ok _ => .ok s1
    | .error _ => .ok s1

/-- `PebbloRetrievalQA._send_prompt` (base.py lines 391-451): same try
and except structure as `_send_discover`, setting the prompt-sent flag. -/
def send_prompt (localResp cloudResp : HttpOutcome) (api_key : Option String)
    (s : PebbloClassState) : Except String PebbloClassState :=
  let s1 :=
    match tryPostAndLog localResp with
    | .ok status => if status = 200 || status = 502 then set_prompt_sent s else s
    | .error _ => s
  match api_key with
  | none => .ok s1
  | some _ =>
    match tryPostAndLog cloudResp with
    | .ok _ => .ok s1
    | .error _ => .ok s1

/-- A backend capability with full operator support and complete field
mappings, for concrete instantiations. -/
def fullCap : BackendCapability :=
  { supportsAnd := true, supportsOr := true, supportsNot := true,
    principalField := some "authorized_identities",
    groupField := some "authorized_groups",
    topicField := some "pebblo_semantic_topics",
    entityField := some "pebblo_semantic_entities" }

/-- A backend capability that declares no NOT operator, for concrete
instantiations of compilation failure. -/
def noNotCap : BackendCapability :=
  { supportsAnd := true, supportsOr := true, supportsNot := false,
    principalField := some "authorized_identities",
    groupField := some "authorized_groups",
    topicField := some "pebblo_semantic_topics",
    entityField := some "pebblo_semantic_entities" }

/-- A one-backend registry with full capability. -/
def demoReg : Registry := [("Pinecone", fullCap)]

/-- A retriever handle targeting the registered backend, with no filter
attached yet. -/
def demoRetriever : Retriever := { vectorstoreClass := "Pinecone", searchFilter := none }

/-- A concrete auth context. -/
def demoAuth : AuthContext := { user_id := "alice", user_auth := ["team-a"] }

/-- A semantic context whose topic and entity labels each appear in both
the denied and the allowed list. -/
def demoSem : SemanticContext :=
  { allowed_topics := ["finance"], denied_topics := ["finance"],
    allowed_entities := ["ssn"], denied_entities := ["ssn"] }

/-- The filter the compiler produces for `demoSem` with no auth context
on `fullCap`. -/
def demoCompiled : CompiledFilter :=
  .andF (.notInCmp "pebblo_semantic_topics" ["finance"])
    (.andF (.inCmp "pebblo_semantic_topics" ["finance"])
      (.andF (.notInCmp "pebblo_semantic_entities" ["ssn"])
        (.inCmp "pebblo_semantic_entities" ["ssn"])))

/-- The identity clause the compiler produces for `demoAuth` on
`fullCap`. -/
def demoIdentityClause : CompiledFilter :=
  .orF (.eqCmp "authorized_identities" "alice")
    (.inCmp "authorized_groups" ["team-a"])

/-- Concrete document metadata: a document authorized for the principal
"alice" and the group "team-b". -/
def demoMeta : String → List String := fun f =>
  if f = "authorized_identities" then ["alice", "bob"]
  else if f = "authorized_groups" then ["team-b"]
  else []

lemma containsClause_self (c : CompiledFilter) : containsClause c c = true := by
  cases c <;> simp [containsClause]

lemma andAll_ok_contains (cap : BackendCapability) :
    ∀ (cs : List CompiledFilter) (f c : CompiledFilter),
      andAll cap cs = .ok f → c ∈ cs → containsClause f c = true := by
  intro cs
  induction cs with
  | nil => intro f c _ hc; exact absurd hc (List.not_mem_nil c)
  | cons a tl ih =>
    intro f c h hc
    cases tl with
    | nil =>
      simp only [andAll, Except.ok.injEq] at h
      rw [List.mem_singleton] at hc
      subst hc; subst h
      exact containsClause_self c
    | cons b tl2 =>
      simp only [andAll] at h
      cases h2 : andAll cap (b :: tl2) with
      | error e => simp [h2] at h
      | ok rres =>
        simp only [h2] at h
        by_cases hA : cap.supportsAnd = true
        · simp only [mkAnd, hA, if_true, Except.ok.injEq] at h
          subst h
          rcases List.mem_cons.mp hc with rfl | hc2
          · simp [containsClause, containsClause_self]
          · have hr := ih rres c h2 hc2
            simp [containsClause, hr]
        · simp [mkAnd, hA] at h

lemma andAll_ok_eval_false (cap : BackendCapability) (meta : String → List String) :
    ∀ (cs : List CompiledFilter) (f c : CompiledFilter),
      andAll cap cs = .ok f → c ∈ cs → evalFilter meta c = false →
      evalFilter meta f = false := by
  intro cs
  induction cs with
  | nil => intro f c _ hc; exact absurd hc (List.not_mem_nil c)
  | cons a tl ih =>
    intro f c h hc hev
    cases tl with
    | nil =>
      simp only [andAll, Except.ok.injEq] at h
      rw [List.mem_singleton] at hc
      subst hc; subst h
      exact hev
    | cons b tl2 =>
      simp only [andAll] at h
      cases h2 : andAll cap (b :: tl2) with
      | error e => simp [h2] at h
      | ok rres =>
        simp only [h2] at h
        by_cases hA : cap.supportsAnd = true
        · simp only [mkAnd, hA, if_true, Except.ok.injEq] at h
          subst h
          rcases List.mem_cons.mp hc with rfl | hc2
          · simp [evalFilter, hev]
          · have hr := ih rres c h2 hc2 hev
            simp [evalFilter, hr]
        · simp [mkAnd, hA] at h

lemma evalFilter_notInCmp_false (meta : String → List String) (f label : String)
    (vs : List String) (h1 : label ∈ vs) (h2 : label ∈ meta f) :
    evalFilter meta (.notInCmp f vs) = false := by
  simp only [evalFilter]
  rw [Bool.eq_false_iff]
  intro hall
  rw [List.all_eq_true] at hall
  have hl := hall label h1
  simp [h2] at hl

lemma compileDimension_denied (cap : BackendCapability) (fm : Option String)
    (fname : String) (denied allowed : List String) (cs : List CompiledFilter)
    (h : compileDimension cap fm fname denied allowed = .ok cs) (hne : denied ≠ []) :
    ∃ f, fm = some f ∧ CompiledFilter.notInCmp f denied ∈ cs := by
  cases denied with
  | nil => exact absurd rfl hne
  | cons d ds =>
    simp only [compileDimension, List.isEmpty_cons, Bool.false_and, if_false,
      Bool.false_eq_true, ite_false] at h
    cases fm with
    | none => simp [requireField] at h
    | some f =>
      simp only [requireField] at h
      by_cases hN : cap.supportsNot = true
      · simp only [mkNotIn, hN, if_true, Except.ok.injEq] at h
        refine ⟨f, rfl, ?_⟩
        rw [← h]
        exact List.mem_append_left _ (List.mem_singleton_self _)
      · simp [mkNotIn, hN] at h

/-- C3: For every SemanticContext in which a label appears in both
denied_topics and allowed_topics (or both denied_entities and
allowed_entities), the compiled filter excludes that label: the NOT-IN
predicate over the denied set is present in the compiled tree
unconditionally, and any document carrying that label in the
corresponding field is rejected, regardless of the allow list. -/
theorem deny_overrides_excludes_label (cap : BackendCapability)
    (auth : Option AuthContext) (s : SemanticContext) (f : CompiledFilter)
    (label : String) (hok : compileFilter cap auth (some s) = .ok f) :
    (label ∈ s.denied_topics ∧ label ∈ s.allowed_topics →
      ∃ tf, cap.topicField = some tf ∧
        containsClause f (.notInCmp tf s.denied_topics) = true ∧
        ∀ meta : String → List String, label ∈ meta tf → evalFilter meta f = false) ∧
    (label ∈ s.denied_entities ∧ label ∈ s.allowed_entities →
      ∃ ef, cap.entityField = some ef ∧
        containsClause f (.notInCmp ef s.denied_entities) = true ∧
        ∀ meta : String → List String, label ∈ meta ef → evalFilter meta f = false) := by
  simp only [compileFilter] at hok
  cases hid : identityClauses cap auth with
  | error e => simp [hid] at hok
  | ok idCls =>
    simp only [hid] at hok
    cases hsem : semanticClauses cap (some s) with
    | error e => simp [hsem] at hok
    | ok semCls =>
      simp only [hsem] at hok
      simp only [semanticClauses] at hsem
      cases hts : compileDimension cap cap.topicField "topic" s.denied_topics s.allowed_topics with
      | error e => simp [hts] at hsem
      | ok t =>
        simp only [hts] at hsem
        cases hes : compileDimension cap cap.entityField "entity" s.denied_entities s.allowed_entities with
        | error e => simp [hes] at hsem
        | ok e2 =>
          simp only [hes, Except.ok.injEq] at hsem
          constructor
          · rintro ⟨hd, _⟩
            obtain ⟨tf, htf, hmem⟩ :=
              compileDimension_denied cap cap.topicField "topic" s.denied_topics
                s.allowed_topics t hts (List.ne_nil_of_mem hd)
            have hmemAll : CompiledFilter.notInCmp tf s.denied_topics ∈ idCls ++ semCls := by
              rw [← hsem]
              exact List.mem_append_right _ (List.mem_append_left _ hmem)
            refine ⟨tf, htf, andAll_ok_contains cap _ f _ hok hmemAll, ?_⟩
            intro meta hlm
            exact andAll_ok_eval_false cap meta _ f _ hok hmemAll
              (evalFilter_notInCmp_false meta tf label _ hd hlm)
          · rintro ⟨hd, _⟩
            obtain ⟨ef, hef, hmem⟩ :=
              compileDimension_denied cap cap.entityField "entity" s.denied_entities
                s.allowed_entities e2 hes (List.ne_nil_of_mem hd)
            have hmemAll : CompiledFilter.notInCmp ef s.denied_entities ∈ idCls ++ semCls := by
              rw [← hsem]
              exact List.mem_append_right _ (List.mem_append_right _ hmem)
            refine ⟨ef, hef, andAll_ok_contains cap _ f _ hok hmemAll, ?_⟩
            intro meta hlm
            exact andAll_ok_eval_false cap meta _ f _ hok hmemAll
              (evalFilter_notInCmp_false meta ef label _ hd hlm)

theorem deny_overrides_excludes_label_witness :
    ("finance" ∈ demoSem.denied_topics ∧ "finance" ∈ demoSem.allowed_topics →
      ∃ tf, fullCap.topicField = some tf ∧
        containsClause demoCompiled (.notInCmp tf demoSem.denied_topics) = true ∧
        ∀ meta : String → List String, "finance" ∈ meta tf →
          evalFilter meta demoCompiled = false) ∧
    ("finance" ∈ demoSem.denied_entities ∧ "finance" ∈ demoSem.allowed_entities →
      ∃ ef, fullCap.entityField = some ef ∧
        containsClause demoCompiled (.notInCmp ef demoSem.denied_entities) = true ∧
        ∀ meta : String → List String, "finance" ∈ meta ef →
          evalFilter meta demoCompiled = false) :=
  deny_overrides_excludes_label fullCap none demoSem demoCompiled "finance" rfl

/-- C5: For every AuthContext with non-empty user_auth, the compiled
identity clause matches a document if and only if user_id occurs in the
backend's configured principal field or some entry of user_auth
intersects the configured group field; when user_auth is empty, a match
on user_id alone still suffices. -/
theorem identity_clause_match_iff (cap : BackendCapability) (a : AuthContext)
    (pf gf : String) (c : CompiledFilter) (meta : String → List String)
    (hpf : cap.principalField = some pf) (hgf : cap.groupField = some gf)
    (hok : compileIdentityClause cap a = .ok c) :
    (a.user_auth ≠ [] →
      (evalFilter meta c = true ↔
        (a.user_id ∈ meta pf ∨ ∃ g ∈ a.user_auth, g ∈ meta gf))) ∧
    (a.user_auth = [] → (evalFilter meta c = true ↔ a.user_id ∈ meta pf)) := by
  simp only [compileIdentityClause, hpf, hgf] at hok
  cases he : a.user_auth.isEmpty with
  | true =>
    rw [List.isEmpty_iff] at he
    simp only [he, List.isEmpty_nil, if_true, Except.ok.injEq] at hok
    subst hok
    constructor
    · intro hne; exact absurd he hne
    · intro _; simp [evalFilter]
  | false =>
    simp only [he, Bool.false_eq_true, ite_false] at hok
    by_cases ho : cap.supportsOr = true
    · simp only [ho, if_true, Except.ok.injEq] at hok
      subst hok
      constructor
      · intro _
        simp [evalFilter, List.any_eq_true]
      · intro h0
        rw [h0] at he
        simp at he
    · simp [ho] at hok

theorem identity_clause_match_iff_witness :
    (demoAuth.user_auth ≠ [] →
      (evalFilter demoMeta demoIdentityClause = true ↔
        (demoAuth.user_id ∈ demoMeta "authorized_identities" ∨
          ∃ g ∈ demoAuth.user_auth, g ∈ demoMeta "authorized_groups"))) ∧
    (demoAuth.user_auth = [] →
      (evalFilter demoMeta demoIdentityClause = true ↔
        demoAuth.user_id ∈ demoMeta "authorized_identities")) :=
  identity_clause_match_iff fullCap demoAuth "authorized_identities"
    "authorized_groups" demoIdentityClause demoMeta rfl rfl rfl

/-- C1: For a retriever whose vectorstore class is not among the
supported vectorstore classes, constructing the chain fails with the
unsupported-backend `ValueError` of `validate_vectorstore`; the
construction produces no chain through which enforcement could run,
performs no filter work (its event trace is empty), and returns no
mutated retriever handle. -/
theorem unsupported_vectorstore_fails_construction (reg : Registry) (r : Retriever)
    (h : r.vectorstoreClass ∉ supportedNames reg) :
    (constructChain reg r).1 =
      .error ("Vectorstore must be an instance of one of the supported vectorstores. Got "
        ++ r.vectorstoreClass ++ " instead.") ∧
    (∀ ch, (constructChain reg r).1 ≠ .ok ch) ∧
    (constructChain reg r).2 = [] ∧
    (∀ r2, validate_vectorstore (supportedNames reg) r ≠ .ok r2) := by
  have hany : (supportedNames reg).any (fun c => decide (r.vectorstoreClass = c)) = false := by
    rw [Bool.eq_false_iff]
    intro hc
    rw [List.any_eq_true] at hc
    obtain ⟨c, hcmem, hceq⟩ := hc
    rw [decide_eq_true_eq] at hceq
    exact h (hceq ▸ hcmem)
  refine ⟨?_, ?_, ?_, ?_⟩
  · simp [constructChain, validate_vectorstore, hany]
  · intro ch
    simp [constructChain, validate_vectorstore, hany]
  · simp [constructChain, validate_vectorstore, hany]
  · intro r2
    simp [validate_vectorstore, hany]

theorem unsupported_vectorstore_fails_construction_witness :
    (constructChain demoReg { vectorstoreClass := "FAISS", searchFilter := none }).1 =
      .error ("Vectorstore must be an instance of one of the supported vectorstores. Got "
        ++ "FAISS" ++ " instead.") ∧
    (∀ ch, (constructChain demoReg { vectorstoreClass := "FAISS", searchFilter := none }).1 ≠
      .ok ch) ∧
    (constructChain demoReg { vectorstoreClass := "FAISS", searchFilter := none }).2 = [] ∧
    (∀ r2, validate_vectorstore (supportedNames demoReg)
      { vectorstoreClass := "FAISS", searchFilter := none } ≠ .ok r2) :=
  unsupported_vectorstore_fails_construction demoReg
    { vectorstoreClass := "FAISS", searchFilter := none } (by decide)

/-- C4: When compiling the enforcement filter fails, both the sync and
the async retrieval propagate that error to the caller and perform no
retrieval: no similarity-search event occurs, no documents are returned,
and the retriever handle is unchanged (fail closed, the error is never
swallowed). -/
theorem compile_error_aborts_retrieval (reg : Registry) (r : Retriever)
    (auth : Option AuthContext) (sem : Option SemanticContext)
    (search : Option CompiledFilter → List Nat) (e : EnforcementError)
    (h : set_enforcement_filters reg r auth sem = .error e) :
    getDocs reg r auth sem search = (.error e, r, []) ∧
    agetDocs reg r auth sem search = (.error e, r, []) := by
  constructor <;> simp [getDocs, agetDocs, h]

theorem compile_error_aborts_retrieval_witness :
    getDocs [("Pinecone", noNotCap)] demoRetriever none
      (some { allowed_topics := [], denied_topics := ["finance"],
              allowed_entities := [], denied_entities := [] })
      (fun _ => []) =
      (.error .unsupportedFilterOperator, demoRetriever, []) ∧
    agetDocs [("Pinecone", noNotCap)] demoRetriever none
      (some { allowed_topics := [], denied_topics := ["finance"],
              allowed_entities := [], denied_entities := [] })
      (fun _ => []) =
      (.error .unsupportedFilterOperator, demoRetriever, []) :=
  compile_error_aborts_retrieval [("Pinecone", noNotCap)] demoRetriever none
    (some { allowed_topics := [], denied_topics := ["finance"],
            allowed_entities := [], denied_entities := [] })
    (fun _ => []) .unsupportedFilterOperator rfl

/-- C7: Compilation of the enforcement filter is deterministic — two
successful compilations of the same (AuthContext, SemanticContext,
backend capability) triple yield structurally identical CompiledFilter
trees — and applying enforcement twice with the same contexts to the
same handle before any search leaves the same effective filter as
applying it once. -/
theorem compile_deterministic_and_idempotent (cap : BackendCapability)
    (auth : Option AuthContext) (sem : Option SemanticContext)
    (f1 f2 : CompiledFilter) (reg : Registry) (r r' : Retriever)
    (h1 : compileFilter cap auth sem = .ok f1)
    (h2 : compileFilter cap auth sem = .ok f2)
    (h3 : set_enforcement_filters reg r auth sem = .ok r') :
    f1 = f2 ∧ set_enforcement_filters reg r' auth sem = .ok r' := by
  constructor
  · exact Except.ok.inj (h1.symm.trans h2)
  · simp only [set_enforcement_filters] at h3 ⊢
    cases hcap : getCapability reg r.vectorstoreClass with
    | error e => simp [hcap] at h3
    | ok cap' =>
      simp only [hcap] at h3
      cases hcf : compileFilter cap' auth sem with
      | error e => simp [hcf] at h3
      | ok f =>
        simp only [hcf, Except.ok.injEq] at h3
        subst h3
        simp [hcap, hcf]

theorem compile_deterministic_and_idempotent_witness :
    demoIdentityClause = demoIdentityClause ∧
    set_enforcement_filters demoReg
      { vectorstoreClass := "Pinecone", searchFilter := some demoIdentityClause }
      (some demoAuth) none =
      .ok { vectorstoreClass := "Pinecone", searchFilter := some demoIdentityClause } :=
  compile_deterministic_and_idempotent fullCap (some demoAuth) none
    demoIdentityClause demoIdentityClause demoReg demoRetriever
    { vectorstoreClass := "Pinecone", searchFilter := some demoIdentityClause }
    rfl rfl rfl

lemma getDocs_agetDocs_eq (reg : Registry) (r : Retriever) (auth : Option AuthContext)
    (sem : Option SemanticContext) (search : Option CompiledFilter → List Nat) :
    agetDocs reg r auth sem search = getDocs reg r auth sem search := rfl

/-- C2: In both the sync and the async retrieval, every similarity
search in the event trace is preceded by the attachment of the very
filter it runs with, and that filter is the one compiled from the
current request's auth and semantic contexts: a search through the chain
is never executed without the enforcement filter attached first. -/
theorem filter_attached_before_search (reg : Registry) (r : Retriever)
    (auth : Option AuthContext) (sem : Option SemanticContext)
    (search : Option CompiledFilter → List Nat) (tr : List Event) (i : Nat)
    (f' : Option CompiledFilter)
    (htr : tr = (getDocs reg r auth sem search).2.2 ∨
           tr = (agetDocs reg r auth sem search).2.2)
    (hi : i < tr.length)
    (hs : tr.get ⟨i, hi⟩ = Event.similaritySearch f') :
    (∃ j : Nat, ∃ hj : j < tr.length, j < i ∧ tr.get ⟨j, hj⟩ = Event.attachFilter f') ∧
    (∃ cap cf, getCapability reg r.vectorstoreClass = .ok cap ∧
      compileFilter cap auth sem = .ok cf ∧ f' = some cf) := by
  have htr' : tr = (getDocs reg r auth sem search).2.2 := by
    rcases htr with h | h
    · exact h
    · rw [getDocs_agetDocs_eq] at h; exact h
  cases hse : set_enforcement_filters reg r auth sem with
  | error e =>
    rw [htr'] at hi
    simp [getDocs, hse] at hi
  | ok r' =>
    have htr2 : tr = [Event.attachFilter r'.searchFilter,
                      Event.similaritySearch r'.searchFilter] := by
      rw [htr']; simp [getDocs, hse]
    subst htr2
    have hi2 : i < 2 := hi
    have hcomp : ∃ cap cf, getCapability reg r.vectorstoreClass = .ok cap ∧
        compileFilter cap auth sem = .ok cf ∧ r'.searchFilter = some cf := by
      simp only [set_enforcement_filters] at hse
      cases hcap : getCapability reg r.vectorstoreClass with
      | error e => simp [hcap] at hse
      | ok cap =>
        simp only [hcap] at hse
        cases hcf : compileFilter cap auth sem with
        | error e => simp [hcf] at hse
        | ok cf =>
          simp only [hcf, Except.ok.injEq] at hse
          exact ⟨cap, cf, rfl, hcf, by rw [← hse]⟩
    match i, hi2 with
    | 0, _ => simp [List.get] at hs
    | 1, _ =>
      simp only [List.get] at hs
      have hf : f' = r'.searchFilter := by
        cases hs; rfl
      subst hf
      refine ⟨⟨0, by simp, by omega, rfl⟩, hcomp⟩

theorem filter_attached_before_search_witness :
    (∃ j : Nat, ∃ hj : j < ([Event.attachFilter (some CompiledFilter.empty),
        Event.similaritySearch (some CompiledFilter.empty)] : List Event).length,
      j < 1 ∧ ([Event.attachFilter (some CompiledFilter.empty),
        Event.similaritySearch (some CompiledFilter.empty)] : List Event).get ⟨j, hj⟩ =
          Event.attachFilter (some CompiledFilter.empty)) ∧
    (∃ cap cf, getCapability demoReg demoRetriever.vectorstoreClass = .ok cap ∧
      compileFilter cap none none = .ok cf ∧ some CompiledFilter.empty = some cf) :=
  filter_attached_before_search demoReg demoRetriever none none (fun _ => [])
    [Event.attachFilter (some CompiledFilter.empty),
     Event.similaritySearch (some CompiledFilter.empty)] 1 (some CompiledFilter.empty)
    (Or.inl rfl) (by decide) rfl

/-- C6: For every request in which the auth context is absent (or
empty/falsy), the Qa payload records the marker string "unknown" as the
user and the empty list as the user identities; the request does not
fail and absence is not an explicit no-identity variant. -/
theorem absent_auth_recorded_as_unknown :
    mkQaRecord none = { user := "unknown", user_identities := [] } ∧
    ∀ (ok rsd_out : String) (rsd : Bool) (docs : List Nat),
      (pebbloCall ok rsd none rsd_out docs).2 =
        [TelemetryEvent.sendPrompt { user := "unknown", user_identities := [] }] :=
  ⟨rfl, fun _ _ _ _ => rfl⟩

/-- C8: The discover-sent and prompt-sent flags are class-level
(process-wide) state: the setter classmethods mutate the class
attribute, and since no instance ever shadows it with an instance
attribute, after any one chain instance triggers the setter every
instance observes the flag as set. -/
theorem sent_flags_are_class_level (s : PebbloClassState) (insts : List InstanceAttrs)
    (h : ∀ i ∈ insts, i.instDict = []) :
    (∀ i ∈ insts, readDiscoverSent (set_discover_sent s) i = true) ∧
    (∀ i ∈ insts, readPromptSent (set_prompt_sent s) i = true) := by
  constructor <;> intro i hi <;>
    simp [readDiscoverSent, readPromptSent, lookupAttr, h i hi,
      set_discover_sent, set_prompt_sent]

theorem sent_flags_are_class_level_witness :
    (∀ i ∈ [InstanceAttrs.mk [], InstanceAttrs.mk []],
      readDiscoverSent (set_discover_sent { discover_sent := false, prompt_sent := false }) i
        = true) ∧
    (∀ i ∈ [InstanceAttrs.mk [], InstanceAttrs.mk []],
      readPromptSent (set_prompt_sent { discover_sent := false, prompt_sent := false }) i
        = true) :=
  sent_flags_are_class_level { discover_sent := false, prompt_sent := false }
    [InstanceAttrs.mk [], InstanceAttrs.mk []] (by decide)

/-- C9: For every outcome of the telemetry HTTP posts (network failure,
non-OK status, malformed response body) and any API key configuration,
`_send_discover` and `_send_prompt` never raise to their caller: every
exception is caught inside the functions, so they always return
normally. -/
theorem telemetry_send_never_raises :
    ∀ (l c : HttpOutcome) (k : Option String) (s : PebbloClassState),
      (send_discover l c k s).isOk = true ∧ (send_prompt l c k s).isOk = true := by
  intro l c k s
  constructor <;>
  · cases k with
    | none => rfl
    | some a => cases h : tryPostAndLog c <;> simp only [send_discover, send_prompt, h] <;> rfl

/-- C10: The async path `_acall` never sends the QA prompt telemetry
payload: it emits no telemetry event, while `_call` emits the
`_send_prompt` event with the Qa payload; both produce an output
dictionary with the same keys. -/
theorem acall_no_prompt_telemetry :
    ∀ (ok : String) (rsd : Bool) (auth : Option AuthContext)
      (answer : String) (docs : List Nat),
      (pebbloAcall ok rsd answer docs).2 = [] ∧
      (pebbloAcall ok rsd answer docs).1.map Prod.fst =
        (pebbloCall ok rsd auth answer docs).1.map Prod.fst ∧
      (pebbloCall ok rsd auth answer docs).2 =
        [TelemetryEvent.sendPrompt (mkQaRecord auth)] :=
  fun _ _ _ _ _ => ⟨rfl, rfl, rfl⟩
